import Mathlib

/-!
Verification development for the Daisy dual-channel guitar effects firmware
(src/firmware/DaisyGuitar.cpp).

Shallow embedding conventions:
* C `float` values are modelled as exact rationals (`ℚ`); where IEEE-754
  non-finite values (NaN, ±infinity) matter to a claim, the extended type
  `FVal` is used, with multiplication/comparison following IEEE semantics
  (comparisons against NaN are false, `0 * inf = NaN`, ...).
* The global parameter variables (DaisyGuitar.cpp lines 38-72) are collected
  into the record `Params`; the parser `ProcessSerial` (lines 278-334) is the
  only writer.
* The USB receive path (`UsbCallback`, lines 241-266) is modelled as a fold of
  a per-byte step over a state holding the current accumulation
  (`serial_buf[0..buf_pos)`), the `new_data_ready` flag, and the committed
  line (the buffer content at the moment the terminator wrote `'\0'`).
  `ProcessSerial` in the C code parses `serial_buf` itself; in every scenario
  considered here the parse runs right after a terminator byte, where
  `serial_buf` up to its `'\0'` equals exactly the committed line, so the model
  agrees with the code. A NUL byte accumulated inside a line ends the string
  the C `sscanf` sees; `processLine` reproduces this by truncating at `'\x00'`.
-/

/-- Extended float value: a finite rational, an infinity, or NaN. -/
inductive FVal where
  | fin (q : ℚ)
  | posInf
  | negInf
  | nan
deriving DecidableEq

namespace FVal

/-- Truth of `std::isfinite`. -/
def isFinite : FVal → Bool
  | fin _ => true
  | _ => false

/-- IEEE multiplication on extended values (`0 * ±inf = NaN`, NaN absorbs). -/
def mul : FVal → FVal → FVal
  | fin a, fin b => fin (a * b)
  | fin a, posInf => if 0 < a then posInf else if a < 0 then negInf else nan
  | fin a, negInf => if 0 < a then negInf else if a < 0 then posInf else nan
  | posInf, fin b => if 0 < b then posInf else if b < 0 then negInf else nan
  | negInf, fin b => if 0 < b then negInf else if b < 0 then posInf else nan
  | posInf, posInf => posInf
  | posInf, negInf => negInf
  | negInf, posInf => negInf
  | negInf, negInf => posInf
  | nan, _ => nan
  | _, nan => nan

/-- IEEE subtraction on extended values (only the cases reachable in
the firmware matter; `inf - inf = NaN` as in IEEE). -/
def sub : FVal → FVal → FVal
  | fin a, fin b => fin (a - b)
  | fin _, posInf => negInf
  | fin _, negInf => posInf
  | posInf, fin _ => posInf
  | negInf, fin _ => negInf
  | posInf, posInf => nan
  | posInf, negInf => posInf
  | negInf, posInf => negInf
  | negInf, negInf => nan
  | nan, _ => nan
  | _, nan => nan

/-- Division by a positive finite constant (used for `/ 3.0f`). -/
def divC (x : FVal) (c : ℚ) : FVal :=
  match x with
  | fin a => fin (a / c)
  | posInf => posInf
  | negInf => negInf
  | nan => nan

/-- The C comparison `x > c` (false whenever `x` is NaN). -/
def gtq : FVal → ℚ → Bool
  | fin a, c => c < a
  | posInf, _ => true
  | negInf, _ => false
  | nan, _ => false

/-- The C comparison `x < c` (false whenever `x` is NaN). -/
def ltq : FVal → ℚ → Bool
  | fin a, c => a < c
  | posInf, _ => false
  | negInf, _ => true
  | nan, _ => false

end FVal

/-- DaisyGuitar.cpp lines 83-88: cubic soft clip, on extended values so that
its behaviour on NaN/infinity inputs is captured (`NaN > 1` and `NaN < -1`
are both false, so a NaN falls through to the cubic and stays NaN). -/
def MySoftClip (x : FVal) : FVal :=
  if x.gtq 1 then .fin 1
  else if x.ltq (-1) then .fin (-1)
  else x.sub (((x.mul x).mul x).divC 3)

/-- DaisyGuitar.cpp lines 230-231: `if(!std::isfinite(ch)) ch = 0.0f`. -/
def sanitizeF (x : FVal) : FVal :=
  if x.isFinite then x else .fin 0

/-- DaisyGuitar.cpp lines 226-234 for one channel: master gain, soft clip,
final finiteness check. The pre-stage value `v` is arbitrary (it is whatever
the upstream effect stages produced). -/
def outputStage (v : FVal) (master_gain : ℚ) : FVal :=
  sanitizeF (MySoftClip (v.mul (.fin master_gain)))

/-- daisysp `fclamp(in, min, max) = fmin(fmax(in, min), max)` on finite
values. -/
def fclamp (v lo hi : ℚ) : ℚ := min (max v lo) hi

/-- daisysp `fclamp` on extended values: C `fmax`/`fmin` return the non-NaN
operand, so NaN clamps to `fmin(lo, hi)`; `+inf` clamps to `hi`, `-inf` to
`fmin(lo, hi)`. -/
def fclampF (v : FVal) (lo hi : ℚ) : ℚ :=
  match v with
  | .fin q => fclamp q lo hi
  | .posInf => hi
  | .negInf => min lo hi
  | .nan => min lo hi

/-- DaisyGuitar.cpp line 70: `enum FilterMode`. -/
inductive FilterMode where
  | LOWPASS
  | BANDPASS
  | HIGHPASS
deriving DecidableEq

/-- The C cast `(int)val`: truncation toward zero. -/
def truncQ (q : ℚ) : ℤ := if 0 ≤ q then ⌊q⌋ else ⌈q⌉

/-- The C cast `(FilterMode)mode`, applied only under `0 <= mode <= 2`. -/
def modeOfInt (m : ℤ) : FilterMode :=
  if m = 0 then .LOWPASS else if m = 1 then .BANDPASS else .HIGHPASS

/-- The global parameter variables, DaisyGuitar.cpp lines 38-72. -/
structure Params where
  ch1_gain : ℚ
  ch1_drive : ℚ
  ch1_filter_freq : ℚ
  ch1_filter_res : ℚ
  ch1_delay_time : ℚ
  ch1_delay_feedback : ℚ
  ch1_delay_mix : ℚ
  ch1_chorus_depth : ℚ
  ch1_chorus_rate : ℚ
  ch2_gain : ℚ
  ch2_drive : ℚ
  ch2_filter_freq : ℚ
  ch2_filter_res : ℚ
  ch2_delay_time : ℚ
  ch2_delay_feedback : ℚ
  ch2_delay_mix : ℚ
  ch2_chorus_depth : ℚ
  ch2_chorus_rate : ℚ
  cross_mod_amt : ℚ
  cross_bleed : ℚ
  stereo_width : ℚ
  reverb_mix : ℚ
  reverb_time : ℚ
  master_gain : ℚ
  ch1_filter_mode : FilterMode
  ch2_filter_mode : FilterMode
deriving DecidableEq

/-- Initial values of the parameter globals, DaisyGuitar.cpp lines 38-72. -/
def defaultParams : Params where
  ch1_gain := 1
  ch1_drive := 0
  ch1_filter_freq := 10000
  ch1_filter_res := 1/10
  ch1_delay_time := 0
  ch1_delay_feedback := 0
  ch1_delay_mix := 0
  ch1_chorus_depth := 0
  ch1_chorus_rate := 1/2
  ch2_gain := 1
  ch2_drive := 0
  ch2_filter_freq := 10000
  ch2_filter_res := 1/10
  ch2_delay_time := 0
  ch2_delay_feedback := 0
  ch2_delay_mix := 0
  ch2_chorus_depth := 0
  ch2_chorus_rate := 1/2
  cross_mod_amt := 0
  cross_bleed := 0
  stereo_width := 1
  reverb_mix := 0
  reverb_time := 1/2
  master_gain := 1
  ch1_filter_mode := .LOWPASS
  ch2_filter_mode := .LOWPASS

/-- The body of the name-match chain in `ProcessSerial`, DaisyGuitar.cpp
lines 292-327: each recognized name writes the clamped value into its
field; the two `filter_mode` names truncate to an integer and update only
when the integer is in `{0, 1, 2}`; an unrecognized name changes nothing.
The `(int)` cast of a non-finite float is undefined behaviour in C; it is
modelled as leaving the state unchanged (no claim depends on it). -/
def applyCommand (n : String) (v : FVal) (p : Params) : Params :=
  if n = "ch1_gain" then { p with ch1_gain := fclampF v 0 2 }
  else if n = "ch1_drive" then { p with ch1_drive := fclampF v 0 1 }
  else if n = "ch1_filter_freq" then { p with ch1_filter_freq := fclampF v 20 20000 }
  else if n = "ch1_filter_res" then { p with ch1_filter_res := fclampF v 0 1 }
  else if n = "ch1_delay_time" then { p with ch1_delay_time := fclampF v 0 1 }
  else if n = "ch1_delay_fb" then { p with ch1_delay_feedback := fclampF v 0 (19/20) }
  else if n = "ch1_delay_mix" then { p with ch1_delay_mix := fclampF v 0 1 }
  else if n = "ch1_chorus_depth" then { p with ch1_chorus_depth := fclampF v 0 1 }
  else if n = "ch1_chorus_rate" then { p with ch1_chorus_rate := fclampF v (1/100) 10 }
  else if n = "ch1_filter_mode" then
    match v with
    | .fin q =>
        let mode := truncQ q
        if 0 ≤ mode ∧ mode ≤ 2 then { p with ch1_filter_mode := modeOfInt mode } else p
    | _ => p
  else if n = "ch2_gain" then { p with ch2_gain := fclampF v 0 2 }
  else if n = "ch2_drive" then { p with ch2_drive := fclampF v 0 1 }
  else if n = "ch2_filter_freq" then { p with ch2_filter_freq := fclampF v 20 20000 }
  else if n = "ch2_filter_res" then { p with ch2_filter_res := fclampF v 0 1 }
  else if n = "ch2_delay_time" then { p with ch2_delay_time := fclampF v 0 1 }
  else if n = "ch2_delay_fb" then { p with ch2_delay_feedback := fclampF v 0 (19/20) }
  else if n = "ch2_delay_mix" then { p with ch2_delay_mix := fclampF v 0 1 }
  else if n = "ch2_chorus_depth" then { p with ch2_chorus_depth := fclampF v 0 1 }
  else if n = "ch2_chorus_rate" then { p with ch2_chorus_rate := fclampF v (1/100) 10 }
  else if n = "ch2_filter_mode" then
    match v with
    | .fin q =>
        let mode := truncQ q
        if 0 ≤ mode ∧ mode ≤ 2 then { p with ch2_filter_mode := modeOfInt mode } else p
    | _ => p
  else if n = "cross_mod" then { p with cross_mod_amt := fclampF v 0 1 }
  else if n = "cross_bleed" then { p with cross_bleed := fclampF v 0 1 }
  else if n = "stereo_width" then { p with stereo_width := fclampF v 0 2 }
  else if n = "reverb_mix" then { p with reverb_mix := fclampF v 0 1 }
  else if n = "reverb_time" then { p with reverb_time := fclampF v 0 1 }
  else if n = "master_gain" then { p with master_gain := fclampF v 0 2 }
  else p

/-- The fixed table of parameter names recognized by `ProcessSerial`. -/
def knownNames : List String :=
  ["ch1_gain", "ch1_drive", "ch1_filter_freq", "ch1_filter_res",
   "ch1_delay_time", "ch1_delay_fb", "ch1_delay_mix", "ch1_chorus_depth",
   "ch1_chorus_rate", "ch1_filter_mode",
   "ch2_gain", "ch2_drive", "ch2_filter_freq", "ch2_filter_res",
   "ch2_delay_time", "ch2_delay_fb", "ch2_delay_mix", "ch2_chorus_depth",
   "ch2_chorus_rate", "ch2_filter_mode",
   "cross_mod", "cross_bleed", "stereo_width", "reverb_mix", "reverb_time",
   "master_gain"]

/-- Range invariant on the parameter store: every field lies within the
clamp range declared for it in the spec (section 3) and used at its write
site in `ProcessSerial`. -/
def inRange (p : Params) : Prop :=
  (0 ≤ p.ch1_gain ∧ p.ch1_gain ≤ 2) ∧
  (0 ≤ p.ch1_drive ∧ p.ch1_drive ≤ 1) ∧
  (20 ≤ p.ch1_filter_freq ∧ p.ch1_filter_freq ≤ 20000) ∧
  (0 ≤ p.ch1_filter_res ∧ p.ch1_filter_res ≤ 1) ∧
  (0 ≤ p.ch1_delay_time ∧ p.ch1_delay_time ≤ 1) ∧
  (0 ≤ p.ch1_delay_feedback ∧ p.ch1_delay_feedback ≤ 19/20) ∧
  (0 ≤ p.ch1_delay_mix ∧ p.ch1_delay_mix ≤ 1) ∧
  (0 ≤ p.ch1_chorus_depth ∧ p.ch1_chorus_depth ≤ 1) ∧
  (1/100 ≤ p.ch1_chorus_rate ∧ p.ch1_chorus_rate ≤ 10) ∧
  (0 ≤ p.ch2_gain ∧ p.ch2_gain ≤ 2) ∧
  (0 ≤ p.ch2_drive ∧ p.ch2_drive ≤ 1) ∧
  (20 ≤ p.ch2_filter_freq ∧ p.ch2_filter_freq ≤ 20000) ∧
  (0 ≤ p.ch2_filter_res ∧ p.ch2_filter_res ≤ 1) ∧
  (0 ≤ p.ch2_delay_time ∧ p.ch2_delay_time ≤ 1) ∧
  (0 ≤ p.ch2_delay_feedback ∧ p.ch2_delay_feedback ≤ 19/20) ∧
  (0 ≤ p.ch2_delay_mix ∧ p.ch2_delay_mix ≤ 1) ∧
  (0 ≤ p.ch2_chorus_depth ∧ p.ch2_chorus_depth ≤ 1) ∧
  (1/100 ≤ p.ch2_chorus_rate ∧ p.ch2_chorus_rate ≤ 10) ∧
  (0 ≤ p.cross_mod_amt ∧ p.cross_mod_amt ≤ 1) ∧
  (0 ≤ p.cross_bleed ∧ p.cross_bleed ≤ 1) ∧
  (0 ≤ p.stereo_width ∧ p.stereo_width ≤ 2) ∧
  (0 ≤ p.reverb_mix ∧ p.reverb_mix ≤ 1) ∧
  (0 ≤ p.reverb_time ∧ p.reverb_time ≤ 1) ∧
  (0 ≤ p.master_gain ∧ p.master_gain ≤ 2) ∧
  (p.ch1_filter_mode = .LOWPASS ∨ p.ch1_filter_mode = .BANDPASS ∨
    p.ch1_filter_mode = .HIGHPASS) ∧
  (p.ch2_filter_mode = .LOWPASS ∨ p.ch2_filter_mode = .BANDPASS ∨
    p.ch2_filter_mode = .HIGHPASS)

/-! ## USB receive path (DaisyGuitar.cpp lines 74-77 and 241-266) -/

/-- State of the serial receive path: `buf` is `serial_buf[0..buf_pos)` (the
bytes accumulated since the last commit or overflow reset), `ready` is
`new_data_ready`, and `committed` is the line most recently terminated
(`serial_buf` content up to the `'\0'` written at the terminator). -/
structure SerialState where
  buf : List Char
  ready : Bool
  committed : List Char
deriving DecidableEq

/-- Startup state: `buf_pos = 0`, flag clear, `serial_buf` zeroed. -/
def initSerial : SerialState := ⟨[], false, []⟩

/-- One byte of `UsbCallback` (DaisyGuitar.cpp lines 245-264): a terminator
(`'\n'` or `';'`) commits the accumulation and resets the cursor; any other
byte is appended while `buf_pos < 127`, and at capacity the byte is dropped
and the cursor reset to 0. -/
def usbStep (st : SerialState) (c : Char) : SerialState :=
  if c = '\n' ∨ c = ';' then
    { st with committed := st.buf, ready := true, buf := [] }
  else
    if st.buf.length < 127 then { st with buf := st.buf ++ [c] }
    else { st with buf := [] }

/-- `UsbCallback` over a whole received byte sequence (the loop at
DaisyGuitar.cpp lines 243-265). -/
def UsbCallback (st : SerialState) (cs : List Char) : SerialState :=
  cs.foldl usbStep st

/-! ## The sscanf scan (DaisyGuitar.cpp line 289)

`sscanf(serial_buf, "%63[^:]:%f", param_name, &val) == 2` is modelled
character by character: `%63[^:]` takes at most 63 non-`':'` characters and
fails on an empty match, the literal `':'` must follow, and `%f` skips
whitespace and converts a `strtod`-style number (decimal mantissa, optional
exponent with back-off when no digit follows the `e`, case-insensitive
`inf`/`infinity`/`nan`). Hexadecimal float literals are not modelled; no
claim involves them. Characters after the converted value are ignored, as
`sscanf` ignores them once both conversions have succeeded. -/

/-- Whitespace skipped by `%f` (C `isspace`). -/
def isSpaceC (c : Char) : Bool :=
  c = ' ' ∨ c = '\t' ∨ c = '\n' ∨ c = '\x0b' ∨ c = '\x0c' ∨ c = '\r'

/-- Decimal digit test. -/
def isDigitC (c : Char) : Bool := '0' ≤ c ∧ c ≤ '9'

/-- Consume a digit run, returning accumulated value, number of digits
consumed, and the rest. -/
def scanDigits : List Char → ℕ → ℕ → ℕ × ℕ × List Char
  | [], acc, n => (acc, n, [])
  | c :: cs, acc, n =>
    if isDigitC c then scanDigits cs (10 * acc + (c.toNat - 48)) (n + 1)
    else (acc, n, c :: cs)

/-- Mantissa of a `strtod` decimal: digits, optionally a point and more
digits; at least one digit overall. -/
def scanMantissa (cs : List Char) : Option (ℚ × List Char) :=
  let (ip, ni, r1) := scanDigits cs 0 0
  match r1 with
  | '.' :: r2 =>
    let (fp, nf, r3) := scanDigits r2 0 0
    if ni + nf = 0 then none
    else some ((ip : ℚ) + (fp : ℚ) / 10 ^ nf, r3)
  | _ => if ni = 0 then none else some ((ip : ℚ), r1)

/-- Optional `strtod` exponent: `e`/`E`, optional sign, digits. When no
digit follows, nothing is consumed (the conversion backs off). -/
def scanExponent (cs : List Char) : ℤ × List Char :=
  match cs with
  | c :: r1 =>
    if c = 'e' ∨ c = 'E' then
      match r1 with
      | '+' :: r2 =>
        let (e, n, r3) := scanDigits r2 0 0
        if n = 0 then (0, cs) else ((e : ℤ), r3)
      | '-' :: r2 =>
        let (e, n, r3) := scanDigits r2 0 0
        if n = 0 then (0, cs) else (-(e : ℤ), r3)
      | _ =>
        let (e, n, r3) := scanDigits r1 0 0
        if n = 0 then (0, cs) else ((e : ℤ), r3)
    else (0, cs)
  | [] => (0, cs)

/-- Case-insensitive literal match; `pat` is given lowercase. Returns the
rest of the input on success. -/
def matchCI : List Char → List Char → Option (List Char)
  | [], cs => some cs
  | _ :: _, [] => none
  | p :: ps, c :: cs => if c.toLower = p then matchCI ps cs else none

/-- The `%f` conversion: skip whitespace, optional sign, then
`inf`/`infinity`/`nan` or a decimal mantissa with optional exponent. -/
def scanFloat (cs0 : List Char) : Option (FVal × List Char) :=
  let cs1 := cs0.dropWhile isSpaceC
  let (neg, cs) :=
    match cs1 with
    | '+' :: r => (false, r)
    | '-' :: r => (true, r)
    | _ => (false, cs1)
  match matchCI ['i', 'n', 'f', 'i', 'n', 'i', 't', 'y'] cs with
  | some r => some (if neg then .negInf else .posInf, r)
  | none =>
  match matchCI ['i', 'n', 'f'] cs with
  | some r => some (if neg then .negInf else .posInf, r)
  | none =>
  match matchCI ['n', 'a', 'n'] cs with
  | some r => some (.nan, r)
  | none =>
  match scanMantissa cs with
  | none => none
  | some (m, r1) =>
    let (e, r2) := scanExponent r1
    some (.fin ((if neg then -m else m) * 10 ^ e), r2)

/-- The `%63[^:]` conversion followed by the literal `':'`: up to 63
non-`':'` characters (failing on an empty match), then `':'` must be next. -/
def scanName (cs : List Char) : Option (List Char × List Char) :=
  let name := (cs.takeWhile (fun c => c ≠ ':')).take 63
  if name.isEmpty then none
  else
    match cs.drop name.length with
    | ':' :: rest => some (name, rest)
    | _ => none

/-- The whole scan: `sscanf(s, "%63[^:]:%f", ...) == 2` yields the name and
the converted value. -/
def scanLine (cs : List Char) : Option (List Char × FVal) :=
  match scanName cs with
  | none => none
  | some (name, rest) =>
    match scanFloat rest with
    | none => none
    | some (v, _) => some (name, v)

/-- The C string `sscanf` actually sees: the committed bytes up to the first
NUL. -/
def cString (cs : List Char) : List Char := cs.takeWhile (fun c => c ≠ '\x00')

/-- Parse one committed line and apply it to the parameter store
(DaisyGuitar.cpp lines 284-332): a failed scan discards the command. -/
def processLine (cs : List Char) (p : Params) : Params :=
  match scanLine (cString cs) with
  | some (name, v) => applyCommand (String.mk name) v p
  | none => p

/-- `ProcessSerial` (DaisyGuitar.cpp lines 278-334): when the ready flag is
set, clear it and parse the committed line. -/
def ProcessSerial (st : SerialState) (p : Params) : SerialState × Params :=
  if st.ready then ({ st with ready := false }, processLine st.committed p)
  else (st, p)

/-! ## Audio-side stages used by the claims -/

/-- External DSP primitive (daisysp `DelayLine<float, 48000>`), modelled at
its documented interface: a circular buffer with a write pointer that moves
downward; `Read d` returns `line[(write_ptr + d) % 48000]`, `Write`
stores at `write_ptr` and decrements it modulo the size. -/
structure DelayLine where
  line : Fin 48000 → ℚ
  writePtr : Fin 48000

namespace DelayLine

/-- Read the sample `d` writes back. -/
def Read (dl : DelayLine) (d : ℕ) : ℚ :=
  dl.line ⟨(dl.writePtr.val + d) % 48000, Nat.mod_lt _ (by norm_num)⟩

/-- Write a sample and step the pointer. -/
def Write (dl : DelayLine) (x : ℚ) : DelayLine where
  line := Function.update dl.line dl.writePtr x
  writePtr := ⟨(dl.writePtr.val + 48000 - 1) % 48000, Nat.mod_lt _ (by norm_num)⟩

end DelayLine

/-- The delay stage of one channel (DaisyGuitar.cpp lines 139-147): when the
mix is positive, read at `(size_t)(delay_time * 48000.0f)` samples, write
`dry + delayed * feedback`, output the linear crossfade; otherwise write the
dry sample unmodified and pass it through. Returns (output sample, new delay
line state). -/
def delayStage (mix time fb : ℚ) (dl : DelayLine) (ch : ℚ) : ℚ × DelayLine :=
  if 0 < mix then
    let delay_samples : ℕ := (⌊time * 48000⌋).toNat
    let delayed := dl.Read delay_samples
    (ch * (1 - mix) + delayed * mix, dl.Write (ch + delayed * fb))
  else
    (ch, dl.Write ch)

/-- The cross-channel mixer and master reverb placeholder (DaisyGuitar.cpp
lines 199-223): bleed from the pre-bleed values of both channels, then
mid-side stereo width, then the single-tap reverb blend. -/
def mixerStage (p : Params) (ch1 ch2 : ℚ) : ℚ × ℚ :=
  let bled :=
    if 0 < p.cross_bleed then
      (ch1 * (1 - p.cross_bleed) + ch2 * p.cross_bleed,
       ch2 * (1 - p.cross_bleed) + ch1 * p.cross_bleed)
    else (ch1, ch2)
  let mid := (bled.1 + bled.2) * (1/2)
  let side := (bled.1 - bled.2) * (1/2) * p.stereo_width
  let w1 := mid + side
  let w2 := mid - side
  if 0 < p.reverb_mix then
    (w1 * (1 - p.reverb_mix) + w1 * p.reverb_mix * p.reverb_time,
     w2 * (1 - p.reverb_mix) + w2 * p.reverb_mix * p.reverb_time)
  else (w1, w2)

/-- A concrete silent delay line, used to instantiate theorems. -/
def dl0 : DelayLine := ⟨fun _ => 0, 0⟩

/-! ## Helper lemmas about the receive path -/

/-- Feeding non-terminator bytes that fit within the remaining capacity
appends them to the accumulation. -/
theorem usb_feed_small (cs : List Char) : ∀ (pre m : List Char) (r : Bool),
    (∀ c ∈ cs, ¬(c = '\n' ∨ c = ';')) → pre.length + cs.length ≤ 127 →
    UsbCallback ⟨pre, r, m⟩ cs = ⟨pre ++ cs, r, m⟩ := by
  induction cs with
  | nil => intro pre m r _ _; simp [UsbCallback]
  | cons c cs ih =>
    intro pre m r hnt hlen
    have hc : ¬(c = '\n' ∨ c = ';') := hnt c (by simp)
    have hcap : pre.length < 127 := by simp at hlen; omega
    have hstep : usbStep ⟨pre, r, m⟩ c = ⟨pre ++ [c], r, m⟩ := by
      simp [usbStep, hc, hcap]
    have htail : UsbCallback ⟨pre ++ [c], r, m⟩ cs = ⟨(pre ++ [c]) ++ cs, r, m⟩ := by
      refine ih (pre ++ [c]) m r (fun d hd => hnt d (by simp [hd])) ?_
      simp at hlen ⊢; omega
    calc UsbCallback ⟨pre, r, m⟩ (c :: cs)
        = UsbCallback (usbStep ⟨pre, r, m⟩ c) cs := rfl
      _ = ⟨(pre ++ [c]) ++ cs, r, m⟩ := by rw [hstep, htail]
      _ = ⟨pre ++ c :: cs, r, m⟩ := by simp

/-- Feeding any run of non-terminator bytes from an empty accumulation: each
time the cursor reaches 127 the incoming byte is dropped and the cursor
reset, so what remains is the suffix after the last reset, that is, the last
`length % 128` bytes. -/
theorem usb_feed_overflow (cs : List Char) (r : Bool) (m : List Char)
    (hnt : ∀ c ∈ cs, ¬(c = '\n' ∨ c = ';')) :
    UsbCallback ⟨[], r, m⟩ cs = ⟨cs.drop (128 * (cs.length / 128)), r, m⟩ := by
  induction cs using List.reverseRecOn with
  | nil => simp [UsbCallback]
  | append_singleton l a ih =>
    have hnt' : ∀ c ∈ l, ¬(c = '\n' ∨ c = ';') := fun c hc => hnt c (by simp [hc])
    have ha : ¬(a = '\n' ∨ a = ';') := hnt a (by simp)
    have hl : UsbCallback ⟨[], r, m⟩ l = ⟨l.drop (128 * (l.length / 128)), r, m⟩ := ih hnt'
    have hbuflen : (l.drop (128 * (l.length / 128))).length = l.length % 128 := by
      rw [List.length_drop]; omega
    have hsplit : UsbCallback ⟨[], r, m⟩ (l ++ [a])
        = usbStep (UsbCallback ⟨[], r, m⟩ l) a := by
      simp [UsbCallback, List.foldl_append]
    rw [hsplit, hl]
    by_cases hfit : l.length % 128 < 127
    · have h1 : (l.length + 1) / 128 = l.length / 128 := by omega
      have h2 : 128 * (l.length / 128) ≤ l.length := by omega
      simp only [usbStep, ha, if_false, hbuflen, hfit, if_true]
      simp only [List.length_append, List.length_cons, List.length_nil, h1]
      rw [List.drop_append_of_le_length h2]
    · have hfull : l.length % 128 = 127 := by omega
      have h1 : 128 * ((l.length + 1) / 128) = l.length + 1 := by omega
      simp only [usbStep, ha, if_false, hbuflen, hfit, if_true]
      simp only [List.length_append, List.length_cons, List.length_nil, h1]
      rw [List.drop_eq_nil_of_le (by simp)]

/-- A terminator byte commits the current accumulation and resets the
cursor. -/
theorem usb_term_commit (st : SerialState) (t : Char) (ht : t = '\n' ∨ t = ';') :
    usbStep st t = ⟨[], true, st.buf⟩ := by
  simp [usbStep, ht]

/-- Feeding a concatenation feeds the pieces in order. -/
theorem usb_append (st : SerialState) (l1 l2 : List Char) :
    UsbCallback st (l1 ++ l2) = UsbCallback (UsbCallback st l1) l2 := by
  simp [UsbCallback, List.foldl_append]

/-- Clamping into a well-ordered interval lands inside it, for every input
value including NaN and the infinities. -/
theorem fclampF_mem (v : FVal) (lo hi : ℚ) (h : lo ≤ hi) :
    lo ≤ fclampF v lo hi ∧ fclampF v lo hi ≤ hi := by
  cases v with
  | fin q =>
    exact ⟨le_min (le_max_right _ _) h, min_le_right _ _⟩
  | posInf => exact ⟨h, le_refl _⟩
  | negInf => simp [fclampF, min_eq_left h, h]
  | nan => simp [fclampF, min_eq_left h, h]

/-- The `(FilterMode)` cast always yields one of the three modes. -/
theorem modeOfInt_cases (m : ℤ) :
    modeOfInt m = .LOWPASS ∨ modeOfInt m = .BANDPASS ∨ modeOfInt m = .HIGHPASS := by
  unfold modeOfInt
  split_ifs <;> simp

/-! ## Claims -/

/-- C10: a terminator byte arriving while the command buffer is empty still
commits (null-terminates) the empty line, raises the ready flag, and leaves
the cursor at 0; parsing the empty command fails the scan, so no parameter
field changes. -/
theorem c10_empty_line_commit (st : SerialState) (t : Char) (p : Params)
    (hbuf : st.buf = []) (ht : t = '\n' ∨ t = ';') :
    (usbStep st t).committed = [] ∧ (usbStep st t).ready = true ∧
    (usbStep st t).buf = [] ∧ processLine [] p = p := by
  rw [usb_term_commit st t ht]
  exact ⟨hbuf, rfl, rfl, rfl⟩

/-- Witness for C10 at two consecutive terminators from startup. -/
theorem c10_empty_line_commit_witness :
    (usbStep initSerial ';').committed = [] ∧
    (usbStep initSerial ';').ready = true ∧
    (usbStep initSerial ';').buf = [] ∧
    processLine [] defaultParams = defaultParams :=
  c10_empty_line_commit initSerial ';' defaultParams rfl (Or.inr rfl)

/-- A name outside the fixed table falls through the whole match chain. -/
theorem applyCommand_unknown (p : Params) (n : String) (v : FVal)
    (hn : n ∉ knownNames) : applyCommand n v p = p := by
  have key : ∀ s : String, s ∈ knownNames → ¬n = s := fun s hs he => hn (he ▸ hs)
  unfold applyCommand
  rw [if_neg (key "ch1_gain" (by decide)), if_neg (key "ch1_drive" (by decide)),
    if_neg (key "ch1_filter_freq" (by decide)), if_neg (key "ch1_filter_res" (by decide)),
    if_neg (key "ch1_delay_time" (by decide)), if_neg (key "ch1_delay_fb" (by decide)),
    if_neg (key "ch1_delay_mix" (by decide)), if_neg (key "ch1_chorus_depth" (by decide)),
    if_neg (key "ch1_chorus_rate" (by decide)), if_neg (key "ch1_filter_mode" (by decide)),
    if_neg (key "ch2_gain" (by decide)), if_neg (key "ch2_drive" (by decide)),
    if_neg (key "ch2_filter_freq" (by decide)), if_neg (key "ch2_filter_res" (by decide)),
    if_neg (key "ch2_delay_time" (by decide)), if_neg (key "ch2_delay_fb" (by decide)),
    if_neg (key "ch2_delay_mix" (by decide)), if_neg (key "ch2_chorus_depth" (by decide)),
    if_neg (key "ch2_chorus_rate" (by decide)), if_neg (key "ch2_filter_mode" (by decide)),
    if_neg (key "cross_mod" (by decide)), if_neg (key "cross_bleed" (by decide)),
    if_neg (key "stereo_width" (by decide)), if_neg (key "reverb_mix" (by decide)),
    if_neg (key "reverb_time" (by decide)), if_neg (key "master_gain" (by decide))]

/-- A committed line whose scanned name is outside the table is a no-op. -/
theorem processLine_unknown (cs nm : List Char) (v : FVal) (p : Params)
    (hscan : scanLine (cString cs) = some (nm, v))
    (hn : String.mk nm ∉ knownNames) : processLine cs p = p := by
  unfold processLine
  rw [hscan]
  exact applyCommand_unknown p (String.mk nm) v hn

/-- C6: a command whose name scans but matches no entry of the fixed name
table leaves every parameter field unchanged (`foo:1.0` as the concrete
instance), and so does any line whose scan fails. -/
theorem c6_unknown_name_noop (p : Params) (n : String) (v : FVal) (cs : List Char)
    (hn : n ∉ knownNames) :
    applyCommand n v p = p ∧
    processLine "foo:1.0".toList p = p ∧
    (scanLine (cString cs) = none → processLine cs p = p) := by
  refine ⟨applyCommand_unknown p n v hn, ?_, ?_⟩
  · exact processLine_unknown _ "foo".toList (.fin 1) p
      (by with_unfolding_all decide) (by decide)
  · intro h
    unfold processLine
    rw [h]

/-- Witness for C6 with the unknown name of the spec's example. -/
theorem c6_unknown_name_noop_witness :
    applyCommand "foo" (.fin 1) defaultParams = defaultParams ∧
    processLine "foo:1.0".toList defaultParams = defaultParams ∧
    (scanLine (cString "garbage".toList) = none →
      processLine "garbage".toList defaultParams = defaultParams) :=
  c6_unknown_name_noop defaultParams "foo" (.fin 1) "garbage".toList (by decide)

/-- C7 counterexample: `sscanf` does not reject characters after the
converted value, so `ch1_gain:1.5xyz` is accepted and writes 1.5 into
`ch1_gain` — the claim says such a line is discarded with no write. -/
theorem c7_counterexample :
    (processLine "ch1_gain:1.5xyz".toList defaultParams).ch1_gain = 3/2 ∧
    defaultParams.ch1_gain ≠ 3/2 := by
  with_unfolding_all decide

/-- C7 (amended): a committed line is discarded with no parameter write
exactly when the two-conversion scan itself fails (no leading `name` token
before a `':'`, or no parseable float prefix after it); characters remaining
after the converted value are ignored, and the command still takes effect. -/
theorem c7_scan_failure_discards (cs : List Char) (p : Params)
    (h : scanLine (cString cs) = none) :
    processLine cs p = p ∧
    processLine "ch1_gain:1.5xyz".toList defaultParams
      = { defaultParams with ch1_gain := 3/2 } := by
  constructor
  · unfold processLine
    rw [h]
  · have hscan : scanLine (cString "ch1_gain:1.5xyz".toList)
        = some ("ch1_gain".toList, .fin (3/2)) := by with_unfolding_all decide
    unfold processLine
    rw [hscan]
    have hv : fclampF (.fin (3/2)) 0 2 = 3/2 := by with_unfolding_all decide
    show { defaultParams with ch1_gain := fclampF (.fin (3/2)) 0 2 } = _
    rw [hv]

/-- Witness for C7 on lines with no colon and with a non-numeric value. -/
theorem c7_scan_failure_discards_witness :
    processLine "ch1_gain 1.5".toList defaultParams = defaultParams ∧
    processLine "ch1_gain:1.5xyz".toList defaultParams
      = { defaultParams with ch1_gain := 3/2 } :=
  c7_scan_failure_discards "ch1_gain 1.5".toList defaultParams (by decide)

/-- C8: a `ch1_filter_mode`/`ch2_filter_mode` command truncates its value
toward zero; a truncated value in `{0, 1, 2}` selects the corresponding
mode, any other value leaves the whole store unchanged. -/
theorem c8_filter_mode_guard (p : Params) (q : ℚ) :
    ((0 ≤ truncQ q ∧ truncQ q ≤ 2) →
      applyCommand "ch1_filter_mode" (.fin q) p
          = { p with ch1_filter_mode := modeOfInt (truncQ q) } ∧
      applyCommand "ch2_filter_mode" (.fin q) p
          = { p with ch2_filter_mode := modeOfInt (truncQ q) }) ∧
    (¬(0 ≤ truncQ q ∧ truncQ q ≤ 2) →
      applyCommand "ch1_filter_mode" (.fin q) p = p ∧
      applyCommand "ch2_filter_mode" (.fin q) p = p) := by
  have h1 : applyCommand "ch1_filter_mode" (.fin q) p
      = if 0 ≤ truncQ q ∧ truncQ q ≤ 2
        then { p with ch1_filter_mode := modeOfInt (truncQ q) } else p := rfl
  have h2 : applyCommand "ch2_filter_mode" (.fin q) p
      = if 0 ≤ truncQ q ∧ truncQ q ≤ 2
        then { p with ch2_filter_mode := modeOfInt (truncQ q) } else p := rfl
  constructor
  · intro h
    rw [h1, h2, if_pos h, if_pos h]
    exact ⟨rfl, rfl⟩
  · intro h
    rw [h1, h2, if_neg h, if_neg h]
    exact ⟨rfl, rfl⟩

/-- Witness for C8 at an in-range fractional value (2.5 truncates to 2,
HIGHPASS) and an out-of-range one (7 leaves the store untouched). -/
theorem c8_filter_mode_guard_witness :
    (applyCommand "ch1_filter_mode" (.fin (5/2)) defaultParams
        = { defaultParams with ch1_filter_mode := modeOfInt (truncQ (5/2)) } ∧
     applyCommand "ch2_filter_mode" (.fin (5/2)) defaultParams
        = { defaultParams with ch2_filter_mode := modeOfInt (truncQ (5/2)) }) ∧
    (applyCommand "ch1_filter_mode" (.fin 7) defaultParams = defaultParams ∧
     applyCommand "ch2_filter_mode" (.fin 7) defaultParams = defaultParams) :=
  ⟨(c8_filter_mode_guard defaultParams (5/2)).1 (by with_unfolding_all decide),
   (c8_filter_mode_guard defaultParams 7).2 (by with_unfolding_all decide)⟩
/-- Range preservation for the `ch1_gain` command. -/
theorem inRange_set_ch1_gain (p : Params) (v : FVal) (hp : inRange p) :
    inRange (applyCommand "ch1_gain" v p) := by
  have e : applyCommand "ch1_gain" v p = { p with ch1_gain := fclampF v 0 2 } := rfl
  rw [e]
  simp only [inRange] at hp
  obtain ⟨h1, h2, h3, h4, h5, h6, h7, h8, h9, h10, h11, h12, h13, h14, h15, h16, h17, h18, h19, h20, h21, h22, h23, h24, hm1, hm2⟩ := hp
  exact ⟨fclampF_mem _ _ _ (by norm_num), h2, h3, h4, h5, h6, h7, h8, h9, h10, h11, h12, h13, h14, h15, h16, h17, h18, h19, h20, h21, h22, h23, h24, hm1, hm2⟩

/-- Range preservation for the `ch1_drive` command. -/
theorem inRange_set_ch1_drive (p : Params) (v : FVal) (hp : inRange p) :
    inRange (applyCommand "ch1_drive" v p) := by
  have e : applyCommand "ch1_drive" v p = { p with ch1_drive := fclampF v 0 1 } := rfl
  rw [e]
  simp only [inRange] at hp
  obtain ⟨h1, h2, h3, h4, h5, h6, h7, h8, h9, h10, h11, h12, h13, h14, h15, h16, h17, h18, h19, h20, h21, h22, h23, h24, hm1, hm2⟩ := hp
  exact ⟨h1, fclampF_mem _ _ _ (by norm_num), h3, h4, h5, h6, h7, h8, h9, h10, h11, h12, h13, h14, h15, h16, h17, h18, h19, h20, h21, h22, h23, h24, hm1, hm2⟩

/-- Range preservation for the `ch1_filter_freq` command. -/
theorem inRange_set_ch1_filter_freq (p : Params) (v : FVal) (hp : inRange p) :
    inRange (applyCommand "ch1_filter_freq" v p) := by
  have e : applyCommand "ch1_filter_freq" v p = { p with ch1_filter_freq := fclampF v 20 20000 } := rfl
  rw [e]
  simp only [inRange] at hp
  obtain ⟨h1, h2, h3, h4, h5, h6, h7, h8, h9, h10, h11, h12, h13, h14, h15, h16, h17, h18, h19, h20, h21, h22, h23, h24, hm1, hm2⟩ := hp
  exact ⟨h1, h2, fclampF_mem _ _ _ (by norm_num), h4, h5, h6, h7, h8, h9, h10, h11, h12, h13, h14, h15, h16, h17, h18, h19, h20, h21, h22, h23, h24, hm1, hm2⟩

/-- Range preservation for the `ch1_filter_res` command. -/
theorem inRange_set_ch1_filter_res (p : Params) (v : FVal) (hp : inRange p) :
    inRange (applyCommand "ch1_filter_res" v p) := by
  have e : applyCommand "ch1_filter_res" v p = { p with ch1_filter_res := fclampF v 0 1 } := rfl
  rw [e]
  simp only [inRange] at hp
  obtain ⟨h1, h2, h3, h4, h5, h6, h7, h8, h9, h10, h11, h12, h13, h14, h15, h16, h17, h18, h19, h20, h21, h22, h23, h24, hm1, hm2⟩ := hp
  exact ⟨h1, h2, h3, fclampF_mem _ _ _ (by norm_num), h5, h6, h7, h8, h9, h10, h11, h12, h13, h14, h15, h16, h17, h18, h19, h20, h21, h22, h23, h24, hm1, hm2⟩

/-- Range preservation for the `ch1_delay_time` command. -/
theorem inRange_set_ch1_delay_time (p : Params) (v : FVal) (hp : inRange p) :
    inRange (applyCommand "ch1_delay_time" v p) := by
  have e : applyCommand "ch1_delay_time" v p = { p with ch1_delay_time := fclampF v 0 1 } := rfl
  rw [e]
  simp only [inRange] at hp
  obtain ⟨h1, h2, h3, h4, h5, h6, h7, h8, h9, h10, h11, h12, h13, h14, h15, h16, h17, h18, h19, h20, h21, h22, h23, h24, hm1, hm2⟩ := hp
  exact ⟨h1, h2, h3, h4, fclampF_mem _ _ _ (by norm_num), h6, h7, h8, h9, h10, h11, h12, h13, h14, h15, h16, h17, h18, h19, h20, h21, h22, h23, h24, hm1, hm2⟩

/-- Range preservation for the `ch1_delay_fb` command. -/
theorem inRange_set_ch1_delay_fb (p : Params) (v : FVal) (hp : inRange p) :
    inRange (applyCommand "ch1_delay_fb" v p) := by
  have e : applyCommand "ch1_delay_fb" v p = { p with ch1_delay_feedback := fclampF v 0 (19/20) } := rfl
  rw [e]
  simp only [inRange] at hp
  obtain ⟨h1, h2, h3, h4, h5, h6, h7, h8, h9, h10, h11, h12, h13, h14, h15, h16, h17, h18, h19, h20, h21, h22, h23, h24, hm1, hm2⟩ := hp
  exact ⟨h1, h2, h3, h4, h5, fclampF_mem _ _ _ (by norm_num), h7, h8, h9, h10, h11, h12, h13, h14, h15, h16, h17, h18, h19, h20, h21, h22, h23, h24, hm1, hm2⟩

/-- Range preservation for the `ch1_delay_mix` command. -/
theorem inRange_set_ch1_delay_mix (p : Params) (v : FVal) (hp : inRange p) :
    inRange (applyCommand "ch1_delay_mix" v p) := by
  have e : applyCommand "ch1_delay_mix" v p = { p with ch1_delay_mix := fclampF v 0 1 } := rfl
  rw [e]
  simp only [inRange] at hp
  obtain ⟨h1, h2, h3, h4, h5, h6, h7, h8, h9, h10, h11, h12, h13, h14, h15, h16, h17, h18, h19, h20, h21, h22, h23, h24, hm1, hm2⟩ := hp
  exact ⟨h1, h2, h3, h4, h5, h6, fclampF_mem _ _ _ (by norm_num), h8, h9, h10, h11, h12, h13, h14, h15, h16, h17, h18, h19, h20, h21, h22, h23, h24, hm1, hm2⟩

/-- Range preservation for the `ch1_chorus_depth` command. -/
theorem inRange_set_ch1_chorus_depth (p : Params) (v : FVal) (hp : inRange p) :
    inRange (applyCommand "ch1_chorus_depth" v p) := by
  have e : applyCommand "ch1_chorus_depth" v p = { p with ch1_chorus_depth := fclampF v 0 1 } := rfl
  rw [e]
  simp only [inRange] at hp
  obtain ⟨h1, h2, h3, h4, h5, h6, h7, h8, h9, h10, h11, h12, h13, h14, h15, h16, h17, h18, h19, h20, h21, h22, h23, h24, hm1, hm2⟩ := hp
  exact ⟨h1, h2, h3, h4, h5, h6, h7, fclampF_mem _ _ _ (by norm_num), h9, h10, h11, h12, h13, h14, h15, h16, h17, h18, h19, h20, h21, h22, h23, h24, hm1, hm2⟩

/-- Range preservation for the `ch1_chorus_rate` command. -/
theorem inRange_set_ch1_chorus_rate (p : Params) (v : FVal) (hp : inRange p) :
    inRange (applyCommand "ch1_chorus_rate" v p) := by
  have e : applyCommand "ch1_chorus_rate" v p = { p with ch1_chorus_rate := fclampF v (1/100) 10 } := rfl
  rw [e]
  simp only [inRange] at hp
  obtain ⟨h1, h2, h3, h4, h5, h6, h7, h8, h9, h10, h11, h12, h13, h14, h15, h16, h17, h18, h19, h20, h21, h22, h23, h24, hm1, hm2⟩ := hp
  exact ⟨h1, h2, h3, h4, h5, h6, h7, h8, fclampF_mem _ _ _ (by norm_num), h10, h11, h12, h13, h14, h15, h16, h17, h18, h19, h20, h21, h22, h23, h24, hm1, hm2⟩

/-- Range preservation for the `ch2_gain` command. -/
theorem inRange_set_ch2_gain (p : Params) (v : FVal) (hp : inRange p) :
    inRange (applyCommand "ch2_gain" v p) := by
  have e : applyCommand "ch2_gain" v p = { p with ch2_gain := fclampF v 0 2 } := rfl
  rw [e]
  simp only [inRange] at hp
  obtain ⟨h1, h2, h3, h4, h5, h6, h7, h8, h9, h10, h11, h12, h13, h14, h15, h16, h17, h18, h19, h20, h21, h22, h23, h24, hm1, hm2⟩ := hp
  exact ⟨h1, h2, h3, h4, h5, h6, h7, h8, h9, fclampF_mem _ _ _ (by norm_num), h11, h12, h13, h14, h15, h16, h17, h18, h19, h20, h21, h22, h23, h24, hm1, hm2⟩

/-- Range preservation for the `ch2_drive` command. -/
theorem inRange_set_ch2_drive (p : Params) (v : FVal) (hp : inRange p) :
    inRange (applyCommand "ch2_drive" v p) := by
  have e : applyCommand "ch2_drive" v p = { p with ch2_drive := fclampF v 0 1 } := rfl
  rw [e]
  simp only [inRange] at hp
  obtain ⟨h1, h2, h3, h4, h5, h6, h7, h8, h9, h10, h11, h12, h13, h14, h15, h16, h17, h18, h19, h20, h21, h22, h23, h24, hm1, hm2⟩ := hp
  exact ⟨h1, h2, h3, h4, h5, h6, h7, h8, h9, h10, fclampF_mem _ _ _ (by norm_num), h12, h13, h14, h15, h16, h17, h18, h19, h20, h21, h22, h23, h24, hm1, hm2⟩

/-- Range preservation for the `ch2_filter_freq` command. -/
theorem inRange_set_ch2_filter_freq (p : Params) (v : FVal) (hp : inRange p) :
    inRange (applyCommand "ch2_filter_freq" v p) := by
  have e : applyCommand "ch2_filter_freq" v p = { p with ch2_filter_freq := fclampF v 20 20000 } := rfl
  rw [e]
  simp only [inRange] at hp
  obtain ⟨h1, h2, h3, h4, h5, h6, h7, h8, h9, h10, h11, h12, h13, h14, h15, h16, h17, h18, h19, h20, h21, h22, h23, h24, hm1, hm2⟩ := hp
  exact ⟨h1, h2, h3, h4, h5, h6, h7, h8, h9, h10, h11, fclampF_mem _ _ _ (by norm_num), h13, h14, h15, h16, h17, h18, h19, h20, h21, h22, h23, h24, hm1, hm2⟩

/-- Range preservation for the `ch2_filter_res` command. -/
theorem inRange_set_ch2_filter_res (p : Params) (v : FVal) (hp : inRange p) :
    inRange (applyCommand "ch2_filter_res" v p) := by
  have e : applyCommand "ch2_filter_res" v p = { p with ch2_filter_res := fclampF v 0 1 } := rfl
  rw [e]
  simp only [inRange] at hp
  obtain ⟨h1, h2, h3, h4, h5, h6, h7, h8, h9, h10, h11, h12, h13, h14, h15, h16, h17, h18, h19, h20, h21, h22, h23, h24, hm1, hm2⟩ := hp
  exact ⟨h1, h2, h3, h4, h5, h6, h7, h8, h9, h10, h11, h12, fclampF_mem _ _ _ (by norm_num), h14, h15, h16, h17, h18, h19, h20, h21, h22, h23, h24, hm1, hm2⟩

/-- Range preservation for the `ch2_delay_time` command. -/
theorem inRange_set_ch2_delay_time (p : Params) (v : FVal) (hp : inRange p) :
    inRange (applyCommand "ch2_delay_time" v p) := by
  have e : applyCommand "ch2_delay_time" v p = { p with ch2_delay_time := fclampF v 0 1 } := rfl
  rw [e]
  simp only [inRange] at hp
  obtain ⟨h1, h2, h3, h4, h5, h6, h7, h8, h9, h10, h11, h12, h13, h14, h15, h16, h17, h18, h19, h20, h21, h22, h23, h24, hm1, hm2⟩ := hp
  exact ⟨h1, h2, h3, h4, h5, h6, h7, h8, h9, h10, h11, h12, h13, fclampF_mem _ _ _ (by norm_num), h15, h16, h17, h18, h19, h20, h21, h22, h23, h24, hm1, hm2⟩

/-- Range preservation for the `ch2_delay_fb` command. -/
theorem inRange_set_ch2_delay_fb (p : Params) (v : FVal) (hp : inRange p) :
    inRange (applyCommand "ch2_delay_fb" v p) := by
  have e : applyCommand "ch2_delay_fb" v p = { p with ch2_delay_feedback := fclampF v 0 (19/20) } := rfl
  rw [e]
  simp only [inRange] at hp
  obtain ⟨h1, h2, h3, h4, h5, h6, h7, h8, h9, h10, h11, h12, h13, h14, h15, h16, h17, h18, h19, h20, h21, h22, h23, h24, hm1, hm2⟩ := hp
  exact ⟨h1, h2, h3, h4, h5, h6, h7, h8, h9, h10, h11, h12, h13, h14, fclampF_mem _ _ _ (by norm_num), h16, h17, h18, h19, h20, h21, h22, h23, h24, hm1, hm2⟩

/-- Range preservation for the `ch2_delay_mix` command. -/
theorem inRange_set_ch2_delay_mix (p : Params) (v : FVal) (hp : inRange p) :
    inRange (applyCommand "ch2_delay_mix" v p) := by
  have e : applyCommand "ch2_delay_mix" v p = { p with ch2_delay_mix := fclampF v 0 1 } := rfl
  rw [e]
  simp only [inRange] at hp
  obtain ⟨h1, h2, h3, h4, h5, h6, h7, h8, h9, h10, h11, h12, h13, h14, h15, h16, h17, h18, h19, h20, h21, h22, h23, h24, hm1, hm2⟩ := hp
  exact ⟨h1, h2, h3, h4, h5, h6, h7, h8, h9, h10, h11, h12, h13, h14, h15, fclampF_mem _ _ _ (by norm_num), h17, h18, h19, h20, h21, h22, h23, h24, hm1, hm2⟩

/-- Range preservation for the `ch2_chorus_depth` command. -/
theorem inRange_set_ch2_chorus_depth (p : Params) (v : FVal) (hp : inRange p) :
    inRange (applyCommand "ch2_chorus_depth" v p) := by
  have e : applyCommand "ch2_chorus_depth" v p = { p with ch2_chorus_depth := fclampF v 0 1 } := rfl
  rw [e]
  simp only [inRange] at hp
  obtain ⟨h1, h2, h3, h4, h5, h6, h7, h8, h9, h10, h11, h12, h13, h14, h15, h16, h17, h18, h19, h20, h21, h22, h23, h24, hm1, hm2⟩ := hp
  exact ⟨h1, h2, h3, h4, h5, h6, h7, h8, h9, h10, h11, h12, h13, h14, h15, h16, fclampF_mem _ _ _ (by norm_num), h18, h19, h20, h21, h22, h23, h24, hm1, hm2⟩

/-- Range preservation for the `ch2_chorus_rate` command. -/
theorem inRange_set_ch2_chorus_rate (p : Params) (v : FVal) (hp : inRange p) :
    inRange (applyCommand "ch2_chorus_rate" v p) := by
  have e : applyCommand "ch2_chorus_rate" v p = { p with ch2_chorus_rate := fclampF v (1/100) 10 } := rfl
  rw [e]
  simp only [inRange] at hp
  obtain ⟨h1, h2, h3, h4, h5, h6, h7, h8, h9, h10, h11, h12, h13, h14, h15, h16, h17, h18, h19, h20, h21, h22, h23, h24, hm1, hm2⟩ := hp
  exact ⟨h1, h2, h3, h4, h5, h6, h7, h8, h9, h10, h11, h12, h13, h14, h15, h16, h17, fclampF_mem _ _ _ (by norm_num), h19, h20, h21, h22, h23, h24, hm1, hm2⟩

/-- Range preservation for the `cross_mod` command. -/
theorem inRange_set_cross_mod (p : Params) (v : FVal) (hp : inRange p) :
    inRange (applyCommand "cross_mod" v p) := by
  have e : applyCommand "cross_mod" v p = { p with cross_mod_amt := fclampF v 0 1 } := rfl
  rw [e]
  simp only [inRange] at hp
  obtain ⟨h1, h2, h3, h4, h5, h6, h7, h8, h9, h10, h11, h12, h13, h14, h15, h16, h17, h18, h19, h20, h21, h22, h23, h24, hm1, hm2⟩ := hp
  exact ⟨h1, h2, h3, h4, h5, h6, h7, h8, h9, h10, h11, h12, h13, h14, h15, h16, h17, h18, fclampF_mem _ _ _ (by norm_num), h20, h21, h22, h23, h24, hm1, hm2⟩

/-- Range preservation for the `cross_bleed` command. -/
theorem inRange_set_cross_bleed (p : Params) (v : FVal) (hp : inRange p) :
    inRange (applyCommand "cross_bleed" v p) := by
  have e : applyCommand "cross_bleed" v p = { p with cross_bleed := fclampF v 0 1 } := rfl
  rw [e]
  simp only [inRange] at hp
  obtain ⟨h1, h2, h3, h4, h5, h6, h7, h8, h9, h10, h11, h12, h13, h14, h15, h16, h17, h18, h19, h20, h21, h22, h23, h24, hm1, hm2⟩ := hp
  exact ⟨h1, h2, h3, h4, h5, h6, h7, h8, h9, h10, h11, h12, h13, h14, h15, h16, h17, h18, h19, fclampF_mem _ _ _ (by norm_num), h21, h22, h23, h24, hm1, hm2⟩

/-- Range preservation for the `stereo_width` command. -/
theorem inRange_set_stereo_width (p : Params) (v : FVal) (hp : inRange p) :
    inRange (applyCommand "stereo_width" v p) := by
  have e : applyCommand "stereo_width" v p = { p with stereo_width := fclampF v 0 2 } := rfl
  rw [e]
  simp only [inRange] at hp
  obtain ⟨h1, h2, h3, h4, h5, h6, h7, h8, h9, h10, h11, h12, h13, h14, h15, h16, h17, h18, h19, h20, h21, h22, h23, h24, hm1, hm2⟩ := hp
  exact ⟨h1, h2, h3, h4, h5, h6, h7, h8, h9, h10, h11, h12, h13, h14, h15, h16, h17, h18, h19, h20, fclampF_mem _ _ _ (by norm_num), h22, h23, h24, hm1, hm2⟩

/-- Range preservation for the `reverb_mix` command. -/
theorem inRange_set_reverb_mix (p : Params) (v : FVal) (hp : inRange p) :
    inRange (applyCommand "reverb_mix" v p) := by
  have e : applyCommand "reverb_mix" v p = { p with reverb_mix := fclampF v 0 1 } := rfl
  rw [e]
  simp only [inRange] at hp
  obtain ⟨h1, h2, h3, h4, h5, h6, h7, h8, h9, h10, h11, h12, h13, h14, h15, h16, h17, h18, h19, h20, h21, h22, h23, h24, hm1, hm2⟩ := hp
  exact ⟨h1, h2, h3, h4, h5, h6, h7, h8, h9, h10, h11, h12, h13, h14, h15, h16, h17, h18, h19, h20, h21, fclampF_mem _ _ _ (by norm_num), h23, h24, hm1, hm2⟩

/-- Range preservation for the `reverb_time` command. -/
theorem inRange_set_reverb_time (p : Params) (v : FVal) (hp : inRange p) :
    inRange (applyCommand "reverb_time" v p) := by
  have e : applyCommand "reverb_time" v p = { p with reverb_time := fclampF v 0 1 } := rfl
  rw [e]
  simp only [inRange] at hp
  obtain ⟨h1, h2, h3, h4, h5, h6, h7, h8, h9, h10, h11, h12, h13, h14, h15, h16, h17, h18, h19, h20, h21, h22, h23, h24, hm1, hm2⟩ := hp
  exact ⟨h1, h2, h3, h4, h5, h6, h7, h8, h9, h10, h11, h12, h13, h14, h15, h16, h17, h18, h19, h20, h21, h22, fclampF_mem _ _ _ (by norm_num), h24, hm1, hm2⟩

/-- Range preservation for the `master_gain` command. -/
theorem inRange_set_master_gain (p : Params) (v : FVal) (hp : inRange p) :
    inRange (applyCommand "master_gain" v p) := by
  have e : applyCommand "master_gain" v p = { p with master_gain := fclampF v 0 2 } := rfl
  rw [e]
  simp only [inRange] at hp
  obtain ⟨h1, h2, h3, h4, h5, h6, h7, h8, h9, h10, h11, h12, h13, h14, h15, h16, h17, h18, h19, h20, h21, h22, h23, h24, hm1, hm2⟩ := hp
  exact ⟨h1, h2, h3, h4, h5, h6, h7, h8, h9, h10, h11, h12, h13, h14, h15, h16, h17, h18, h19, h20, h21, h22, h23, fclampF_mem _ _ _ (by norm_num), hm1, hm2⟩

/-- Range preservation for the `ch1_filter_mode` command. -/
theorem inRange_set_ch1_filter_mode (p : Params) (q : ℚ) (hp : inRange p) :
    inRange (applyCommand "ch1_filter_mode" (.fin q) p) := by
  have e : applyCommand "ch1_filter_mode" (.fin q) p
      = if 0 ≤ truncQ q ∧ truncQ q ≤ 2
        then { p with ch1_filter_mode := modeOfInt (truncQ q) } else p := rfl
  rw [e]
  split_ifs with h
  · simp only [inRange] at hp
    obtain ⟨h1, h2, h3, h4, h5, h6, h7, h8, h9, h10, h11, h12, h13, h14, h15, h16, h17, h18, h19, h20, h21, h22, h23, h24, hm1, hm2⟩ := hp
    exact ⟨h1, h2, h3, h4, h5, h6, h7, h8, h9, h10, h11, h12, h13, h14, h15, h16, h17, h18, h19, h20, h21, h22, h23, h24, modeOfInt_cases _, hm2⟩
  · exact hp

/-- Range preservation for the `ch2_filter_mode` command. -/
theorem inRange_set_ch2_filter_mode (p : Params) (q : ℚ) (hp : inRange p) :
    inRange (applyCommand "ch2_filter_mode" (.fin q) p) := by
  have e : applyCommand "ch2_filter_mode" (.fin q) p
      = if 0 ≤ truncQ q ∧ truncQ q ≤ 2
        then { p with ch2_filter_mode := modeOfInt (truncQ q) } else p := rfl
  rw [e]
  split_ifs with h
  · simp only [inRange] at hp
    obtain ⟨h1, h2, h3, h4, h5, h6, h7, h8, h9, h10, h11, h12, h13, h14, h15, h16, h17, h18, h19, h20, h21, h22, h23, h24, hm1, hm2⟩ := hp
    exact ⟨h1, h2, h3, h4, h5, h6, h7, h8, h9, h10, h11, h12, h13, h14, h15, h16, h17, h18, h19, h20, h21, h22, h23, h24, hm1, modeOfInt_cases _⟩
  · exact hp

/-- Every parameter accepted with a finite value lands in its clamp range,
whatever the previous state. -/
theorem inRange_apply (p : Params) (n : String) (q : ℚ) (hp : inRange p) :
    inRange (applyCommand n (.fin q) p) := by
  by_cases hmem : n ∈ knownNames
  · simp only [knownNames, List.mem_cons, List.not_mem_nil, or_false] at hmem
    rcases hmem with e|e|e|e|e|e|e|e|e|e|e|e|e|e|e|e|e|e|e|e|e|e|e|e|e|e <;> subst e
    · exact inRange_set_ch1_gain p _ hp
    · exact inRange_set_ch1_drive p _ hp
    · exact inRange_set_ch1_filter_freq p _ hp
    · exact inRange_set_ch1_filter_res p _ hp
    · exact inRange_set_ch1_delay_time p _ hp
    · exact inRange_set_ch1_delay_fb p _ hp
    · exact inRange_set_ch1_delay_mix p _ hp
    · exact inRange_set_ch1_chorus_depth p _ hp
    · exact inRange_set_ch1_chorus_rate p _ hp
    · exact inRange_set_ch1_filter_mode p q hp
    · exact inRange_set_ch2_gain p _ hp
    · exact inRange_set_ch2_drive p _ hp
    · exact inRange_set_ch2_filter_freq p _ hp
    · exact inRange_set_ch2_filter_res p _ hp
    · exact inRange_set_ch2_delay_time p _ hp
    · exact inRange_set_ch2_delay_fb p _ hp
    · exact inRange_set_ch2_delay_mix p _ hp
    · exact inRange_set_ch2_chorus_depth p _ hp
    · exact inRange_set_ch2_chorus_rate p _ hp
    · exact inRange_set_ch2_filter_mode p q hp
    · exact inRange_set_cross_mod p _ hp
    · exact inRange_set_cross_bleed p _ hp
    · exact inRange_set_stereo_width p _ hp
    · exact inRange_set_reverb_mix p _ hp
    · exact inRange_set_reverb_time p _ hp
    · exact inRange_set_master_gain p _ hp
  · rw [applyCommand_unknown p n _ hmem]
    exact hp

/-- The startup parameter values all lie in their declared ranges. -/
theorem inRange_default : inRange defaultParams := by
  norm_num [inRange, defaultParams]

/-- C3: the parameter store starts inside every declared range, every
accepted command with a finite value (however far out of range) stores a
value inside the target field's clamp range, and in particular
`ch1_gain:99` stores 2.0 while `ch1_gain:-5` stores 0.0; so the range
invariant is preserved by every operation. -/
theorem c3_range_invariant (p : Params) (n : String) (q : ℚ) (hp : inRange p) :
    inRange defaultParams ∧
    inRange (applyCommand n (.fin q) p) ∧
    (applyCommand "ch1_gain" (.fin 99) defaultParams).ch1_gain = 2 ∧
    (applyCommand "ch1_gain" (.fin (-5)) defaultParams).ch1_gain = 0 := by
  refine ⟨inRange_default, inRange_apply p n q hp, ?_, ?_⟩
  · have e1 : (applyCommand "ch1_gain" (.fin 99) defaultParams).ch1_gain
        = fclampF (.fin 99) 0 2 := rfl
    rw [e1]
    norm_num [fclampF, fclamp]
  · have e2 : (applyCommand "ch1_gain" (.fin (-5)) defaultParams).ch1_gain
        = fclampF (.fin (-5)) 0 2 := rfl
    rw [e2]
    norm_num [fclampF, fclamp]

/-- Witness for C3 at a far out-of-range `stereo_width` command from the
startup state. -/
theorem c3_range_invariant_witness :
    inRange defaultParams ∧
    inRange (applyCommand "stereo_width" (.fin 99) defaultParams) ∧
    (applyCommand "ch1_gain" (.fin 99) defaultParams).ch1_gain = 2 ∧
    (applyCommand "ch1_gain" (.fin (-5)) defaultParams).ch1_gain = 0 :=
  c3_range_invariant defaultParams "stereo_width" 99 inRange_default
/-- C4: with cross-bleed 0, stereo width 1, and no reverb blend, the
mid-side stage returns its input pair exactly on both channels. -/
theorem c4_width_identity (p : Params) (ch1 ch2 : ℚ)
    (hb : p.cross_bleed = 0) (hw : p.stereo_width = 1) (hr : p.reverb_mix = 0) :
    mixerStage p ch1 ch2 = (ch1, ch2) := by
  unfold mixerStage
  rw [hb, hw, hr]
  simp only [lt_irrefl, if_false, Prod.mk.injEq]
  constructor <;> ring

/-- Witness for C4 at the startup parameters and a concrete sample pair. -/
theorem c4_width_identity_witness :
    mixerStage defaultParams (3/4) (-1/3) = (3/4, -1/3) :=
  c4_width_identity defaultParams (3/4) (-1/3) rfl rfl rfl

/-- C5: with delay mix 0 the stage passes the dry sample through unchanged
while still writing it unmodified into the delay line, for every delay time
and feedback; with positive mix it reads at `(size_t)(delay_time * 48000)`
samples, writes `dry + delayed * feedback`, and outputs
`dry * (1 - mix) + delayed * mix`. -/
theorem c5_delay_dry_pass (mix time fb ch : ℚ) (dl : DelayLine) :
    (mix = 0 → delayStage mix time fb dl ch = (ch, dl.Write ch)) ∧
    (0 < mix → delayStage mix time fb dl ch =
      (ch * (1 - mix) + dl.Read (⌊time * 48000⌋).toNat * mix,
       dl.Write (ch + dl.Read (⌊time * 48000⌋).toNat * fb))) := by
  constructor
  · intro h
    unfold delayStage
    rw [h]
    simp only [lt_irrefl, if_false]
  · intro h
    unfold delayStage
    rw [if_pos h]

/-- Witness for C5 with a silent delay line, both for mix 0 and mix 1/2. -/
theorem c5_delay_dry_pass_witness :
    delayStage 0 (1/2) (1/4) dl0 3 = (3, dl0.Write 3) ∧
    delayStage (1/2) (1/2) (1/4) dl0 3 =
      (3 * (1 - 1/2) + dl0.Read (⌊(1/2 : ℚ) * 48000⌋).toNat * (1/2),
       dl0.Write (3 + dl0.Read (⌊(1/2 : ℚ) * 48000⌋).toNat * (1/4))) :=
  ⟨(c5_delay_dry_pass 0 (1/2) (1/4) 3 dl0).1 rfl,
   (c5_delay_dry_pass (1/2) (1/2) (1/4) 3 dl0).2 (by norm_num)⟩
/-- The soft clip maps every finite value to a finite value in [-1, 1]. -/
theorem MySoftClip_fin_bounds (t : ℚ) :
    ∃ q : ℚ, MySoftClip (.fin t) = .fin q ∧ -1 ≤ q ∧ q ≤ 1 := by
  by_cases h1 : 1 < t
  · exact ⟨1, by simp [MySoftClip, FVal.gtq, h1], by norm_num, by norm_num⟩
  · by_cases h2 : t < -1
    · exact ⟨-1, by simp [MySoftClip, FVal.gtq, FVal.ltq, h1, h2], by norm_num,
        by norm_num⟩
    · push_neg at h1 h2
      refine ⟨t - t * t * t / 3, ?_, ?_, ?_⟩
      · simp [MySoftClip, FVal.gtq, FVal.ltq, FVal.mul, FVal.sub, FVal.divC,
          not_lt.mpr h1, not_lt.mpr h2]
      · nlinarith [mul_nonneg (sq_nonneg (t + 1)) (show (0:ℚ) ≤ 2 - t by linarith)]
      · nlinarith [mul_nonneg (sq_nonneg (t - 1)) (show (0:ℚ) ≤ t + 2 by linarith)]

/-- C1: for every pre-output value (finite or not) and in-range master gain,
the emitted sample is a finite value in [-1, 1]; the final sanitization maps
any non-finite value to 0.0; and the soft clip computes `x - x^3/3` for
|x| <= 1 and saturates to ±1 beyond. -/
theorem c1_output_finite_bounded (v : FVal) (g x : ℚ)
    (hg0 : 0 ≤ g) (hg2 : g ≤ 2) :
    (∃ q : ℚ, outputStage v g = .fin q ∧ -1 ≤ q ∧ q ≤ 1) ∧
    (∀ w : FVal, w.isFinite = false → sanitizeF w = .fin 0) ∧
    (-1 ≤ x → x ≤ 1 → MySoftClip (.fin x) = .fin (x - x ^ 3 / 3)) ∧
    (1 < x → MySoftClip (.fin x) = .fin 1) ∧
    (x < -1 → MySoftClip (.fin x) = .fin (-1)) := by
  refine ⟨?_, ?_, ?_, ?_, ?_⟩
  · cases v with
    | fin a =>
      obtain ⟨q, hq, hq1, hq2⟩ := MySoftClip_fin_bounds (a * g)
      refine ⟨q, ?_, hq1, hq2⟩
      unfold outputStage
      have e : FVal.mul (.fin a) (.fin g) = .fin (a * g) := rfl
      rw [e, hq]
      rfl
    | posInf =>
      rcases lt_or_eq_of_le hg0 with hg | hg
      · refine ⟨1, ?_, by norm_num, by norm_num⟩
        unfold outputStage
        simp only [FVal.mul]
        rw [if_pos hg]
        rfl
      · subst hg
        refine ⟨0, ?_, by norm_num, by norm_num⟩
        unfold outputStage
        simp only [FVal.mul]
        rw [if_neg (lt_irrefl 0), if_neg (lt_irrefl 0)]
        rfl
    | negInf =>
      rcases lt_or_eq_of_le hg0 with hg | hg
      · refine ⟨-1, ?_, by norm_num, by norm_num⟩
        unfold outputStage
        simp only [FVal.mul]
        rw [if_pos hg]
        rfl
      · subst hg
        refine ⟨0, ?_, by norm_num, by norm_num⟩
        unfold outputStage
        simp only [FVal.mul]
        rw [if_neg (lt_irrefl 0), if_neg (lt_irrefl 0)]
        rfl
    | nan => exact ⟨0, rfl, by norm_num, by norm_num⟩
  · intro w hw
    cases w <;> simp_all [sanitizeF, FVal.isFinite]
  · intro hx1 hx2
    have e : MySoftClip (.fin x) = .fin (x - x * x * x / 3) := by
      simp [MySoftClip, FVal.gtq, FVal.ltq, FVal.mul, FVal.sub, FVal.divC,
        not_lt.mpr hx2, not_lt.mpr hx1]
    rw [e]
    congr 1
    ring
  · intro h
    simp [MySoftClip, FVal.gtq, h]
  · intro h
    simp [MySoftClip, FVal.gtq, FVal.ltq, h, not_lt.mpr (by linarith : x ≤ 1)]

/-- Witness for C1 at a NaN pre-output value with unity master gain. -/
theorem c1_output_finite_bounded_witness :
    (∃ q : ℚ, outputStage .nan 1 = .fin q ∧ -1 ≤ q ∧ q ≤ 1) ∧
    (∀ w : FVal, w.isFinite = false → sanitizeF w = .fin 0) ∧
    (-1 ≤ (0:ℚ) → (0:ℚ) ≤ 1 → MySoftClip (.fin 0) = .fin (0 - 0 ^ 3 / 3)) ∧
    (1 < (0:ℚ) → MySoftClip (.fin 0) = .fin 1) ∧
    ((0:ℚ) < -1 → MySoftClip (.fin 0) = .fin (-1)) :=
  c1_output_finite_bounded .nan 1 0 (by norm_num) (by norm_num)
/-- C9 counterexample: an overlong line whose length is an exact multiple of
128 (here 256 bytes) leaves no surviving suffix, so the buffer committed at
the terminator IS empty — the claim asserts it is not. -/
theorem c9_counterexample :
    (UsbCallback initSerial (List.replicate 256 'a' ++ [';'])).committed = [] ∧
    127 < (List.replicate 256 'a').length := by
  have h := usb_feed_overflow (List.replicate 256 'a') false []
    (fun c hc => by rw [List.eq_of_mem_replicate hc]; decide)
  have hdrop : (List.replicate 256 'a').drop
      (128 * ((List.replicate 256 'a').length / 128)) = [] := by
    simp only [List.length_replicate, List.drop_replicate]
    norm_num
  have hall : UsbCallback initSerial (List.replicate 256 'a' ++ [';'])
      = ⟨[], true, []⟩ := by
    show UsbCallback ⟨[], false, []⟩ _ = _
    rw [usb_append, h, hdrop]
    exact usb_term_commit _ ';' (Or.inr rfl)
  rw [hall]
  refine ⟨rfl, ?_⟩
  simp only [List.length_replicate]
  norm_num

/-- C9 (amended): after an overlong line, bytes keep accumulating from the
start of the buffer after each overflow reset, so the buffer committed at
the terminator is exactly the suffix after the last reset (the last
`length % 128` bytes) — empty precisely when the length is a multiple of
128 — and that suffix is then handed to the parser like any other command. -/
theorem c9_overflow_suffix (cs : List Char) (t : Char) (p : Params)
    (hcs : ∀ c ∈ cs, ¬(c = '\n' ∨ c = ';')) (hlong : 127 < cs.length)
    (ht : t = '\n' ∨ t = ';') :
    (UsbCallback initSerial (cs ++ [t])).committed
        = cs.drop (128 * (cs.length / 128)) ∧
    (UsbCallback initSerial (cs ++ [t])).ready = true ∧
    (UsbCallback initSerial (cs ++ [t])).buf = [] ∧
    (ProcessSerial (UsbCallback initSerial (cs ++ [t])) p).2
        = processLine (cs.drop (128 * (cs.length / 128))) p := by
  have h1 : UsbCallback initSerial (cs ++ [t])
      = ⟨[], true, cs.drop (128 * (cs.length / 128))⟩ := by
    show UsbCallback ⟨[], false, []⟩ _ = _
    rw [usb_append, usb_feed_overflow cs false [] hcs]
    exact usb_term_commit _ t ht
  rw [h1]
  exact ⟨rfl, rfl, rfl, rfl⟩

/-- Witness for C9 with a 129-byte line: the committed buffer is the single
surviving byte. -/
theorem c9_overflow_suffix_witness :
    (UsbCallback initSerial (List.replicate 129 'a' ++ [';'])).committed
        = (List.replicate 129 'a').drop
            (128 * ((List.replicate 129 'a').length / 128)) ∧
    (UsbCallback initSerial (List.replicate 129 'a' ++ [';'])).ready = true ∧
    (UsbCallback initSerial (List.replicate 129 'a' ++ [';'])).buf = [] ∧
    (ProcessSerial (UsbCallback initSerial (List.replicate 129 'a' ++ [';']))
        defaultParams).2
      = processLine ((List.replicate 129 'a').drop
          (128 * ((List.replicate 129 'a').length / 128))) defaultParams :=
  c9_overflow_suffix (List.replicate 129 'a') ';' defaultParams
    (fun c hc => by rw [List.eq_of_mem_replicate hc]; decide)
    (by simp) (Or.inr rfl)

/-- C2 counterexample: a 129-byte overlong line followed by
`ch1_gain:1.5;` does NOT result in the short command taking effect — the
surviving byte of the overlong line is prepended, the combined name
`ach1_gain` matches nothing, and `ch1_gain` keeps its default 1.0 instead
of 1.5. -/
theorem c2_counterexample :
    (ProcessSerial (UsbCallback initSerial
        (List.replicate 129 'a' ++ ("ch1_gain:1.5".toList ++ [';'])))
        defaultParams).2
      = defaultParams ∧
    defaultParams.ch1_gain ≠ 3/2 := by
  have hmid : UsbCallback initSerial (List.replicate 129 'a')
      = ⟨['a'], false, []⟩ := by
    show UsbCallback ⟨[], false, []⟩ _ = _
    rw [usb_feed_overflow _ false []
      (fun c hc => by rw [List.eq_of_mem_replicate hc]; decide)]
    norm_num [List.drop_replicate]
  have hsm : UsbCallback ⟨['a'], false, []⟩ "ch1_gain:1.5".toList
      = ⟨'a' :: "ch1_gain:1.5".toList, false, []⟩ :=
    usb_feed_small "ch1_gain:1.5".toList ['a'] [] false (by decide) (by decide)
  have hfull : UsbCallback initSerial
      (List.replicate 129 'a' ++ ("ch1_gain:1.5".toList ++ [';']))
      = ⟨[], true, 'a' :: "ch1_gain:1.5".toList⟩ := by
    rw [usb_append, hmid, usb_append, hsm]
    exact usb_term_commit _ ';' (Or.inr rfl)
  rw [hfull]
  constructor
  · have hno : processLine ('a' :: "ch1_gain:1.5".toList) defaultParams
        = defaultParams :=
      processLine_unknown _ "ach1_gain".toList (.fin (3/2)) defaultParams
        (by with_unfolding_all decide) (by decide)
    have e : (ProcessSerial ⟨[], true, 'a' :: "ch1_gain:1.5".toList⟩
        defaultParams).2
        = processLine ('a' :: "ch1_gain:1.5".toList) defaultParams := rfl
    rw [e, hno]
  · with_unfolding_all decide

/-- C2 (amended): when the overlong unterminated line's length is an exact
multiple of 128 (so its last overflow reset leaves no surviving bytes), the
following short command is committed intact and takes effect alone;
`ch1_gain:1.5` then stores 1.5. For other overlong lengths the surviving
suffix is prepended to the short command (see the counterexample). -/
theorem c2_overflow_recovery (cs sc : List Char) (p : Params)
    (hcs : ∀ c ∈ cs, ¬(c = '\n' ∨ c = ';'))
    (hsc : ∀ c ∈ sc, ¬(c = '\n' ∨ c = ';'))
    (hlong : 127 < cs.length) (hmod : cs.length % 128 = 0)
    (hshort : sc.length ≤ 127) :
    (UsbCallback initSerial (cs ++ (sc ++ [';']))).committed = sc ∧
    (UsbCallback initSerial (cs ++ (sc ++ [';']))).ready = true ∧
    (ProcessSerial (UsbCallback initSerial (cs ++ (sc ++ [';']))) p).2
        = processLine sc p ∧
    processLine "ch1_gain:1.5".toList defaultParams
        = { defaultParams with ch1_gain := 3/2 } := by
  have hdrop : cs.drop (128 * (cs.length / 128)) = [] := by
    have he : 128 * (cs.length / 128) = cs.length := by omega
    rw [he, List.drop_length]
  have hmid : UsbCallback initSerial cs = ⟨[], false, []⟩ := by
    show UsbCallback ⟨[], false, []⟩ cs = _
    rw [usb_feed_overflow cs false [] hcs, hdrop]
  have hfull : UsbCallback initSerial (cs ++ (sc ++ [';'])) = ⟨[], true, sc⟩ := by
    rw [usb_append, hmid, usb_append,
      usb_feed_small sc [] [] false hsc (by simpa using hshort)]
    exact usb_term_commit _ ';' (Or.inr rfl)
  rw [hfull]
  refine ⟨rfl, rfl, rfl, ?_⟩
  have hscan : scanLine (cString "ch1_gain:1.5".toList)
      = some ("ch1_gain".toList, .fin (3/2)) := by with_unfolding_all decide
  unfold processLine
  rw [hscan]
  have hv : fclampF (.fin (3/2)) 0 2 = 3/2 := by with_unfolding_all decide
  show { defaultParams with ch1_gain := fclampF (.fin (3/2)) 0 2 } = _
  rw [hv]

/-- Witness for C2 (amended) with a 128-byte overlong line followed by
`ch1_gain:1.5;`. -/
theorem c2_overflow_recovery_witness :
    (UsbCallback initSerial
        (List.replicate 128 'a' ++ ("ch1_gain:1.5".toList ++ [';']))).committed
      = "ch1_gain:1.5".toList ∧
    (UsbCallback initSerial
        (List.replicate 128 'a' ++ ("ch1_gain:1.5".toList ++ [';']))).ready
      = true ∧
    (ProcessSerial (UsbCallback initSerial
        (List.replicate 128 'a' ++ ("ch1_gain:1.5".toList ++ [';'])))
        defaultParams).2
      = processLine "ch1_gain:1.5".toList defaultParams ∧
    processLine "ch1_gain:1.5".toList defaultParams
      = { defaultParams with ch1_gain := 3/2 } :=
  c2_overflow_recovery (List.replicate 128 'a') "ch1_gain:1.5".toList
    defaultParams
    (fun c hc => by rw [List.eq_of_mem_replicate hc]; decide)
    (by decide) (by simp) (by simp) (by decide)
